import Mathlib

/-!
Shallow embedding of `scripts/run_weekly.py`, the weekly-report pipeline
orchestrator, together with proofs of the specification claims about it.

Modelling conventions:
* Filesystem paths are opaque strings; `Path` joining (`a / b`) becomes
  string concatenation with a `/` separator (`pjoin`).
* The filesystem is a predicate `FS : String → Bool` giving existence of a
  path.  `out_dir.mkdir(parents=True, exist_ok=True)` becomes `mkdirp`,
  which marks the directory path as existing and never fails (that is the
  semantics of `exist_ok=True`); parent directories are identified with the
  single path string, which is enough for every claim considered here.
* Ambient runtime facts are gathered in an `Env`:
  `today` models `dt.date.today().isoformat()`, `pyexe` models
  `sys.executable`, `baseDir` models `Path(__file__).resolve().parent`
  (the directory containing the orchestrator script itself), and
  `run` is the oracle for `subprocess.run`: given a command line and the
  current filesystem it returns the completed process (return code,
  captured stdout/stderr) and the filesystem after the child terminated.
  Spawning a child process is modelled exactly by an application of
  `Env.run`; a stage whose script is missing never applies it.
* Logging (`print`) is an observable side effect with no influence on
  control flow and is not modelled.
* `main` additionally records a `trace` of per-stage events (one event per
  stage, either `missing` or `executed`) so that sequencing claims can be
  stated; the trace is pure instrumentation and carries exactly the
  decisions the Python loop makes.
-/

namespace RunWeekly

/-- Existence predicate over opaque path strings. -/
def FS : Type := String → Bool

/-- Model of `pathlib` joining `a / b` on a POSIX system. -/
def pjoin (a b : String) : String := a ++ "/" ++ b

/-- Model of `out_dir.mkdir(parents=True, exist_ok=True)`: the directory
path now exists, everything else is untouched, and the call never fails. -/
def mkdirp (d : String) (fs : FS) : FS := fun p => (p == d) || fs p

/-- Result of `subprocess.run(..., capture_output=True, text=True)`:
return code (an `Int`, since a child killed by a signal is reported with a
negative code), captured stdout and captured stderr. -/
structure ProcResult where
  returncode : Int
  stdout : String
  stderr : String

/-- Ambient runtime environment of one orchestrator invocation. -/
structure Env where
  today : String
  pyexe : String
  baseDir : String
  run : List String → FS → ProcResult × FS

/-- Command-line input before `argparse` applies defaults: each field is
`none` when the corresponding flag was omitted. -/
structure CliInput where
  since_days : Option Int
  topics : Option String
  lang : Option String
  max_items : Option Int
  out_dir : Option String
  max_per_source : Option Int

/-- Resolved run configuration, the result of `parse_args`. -/
structure Args where
  since_days : Int
  topics : String
  lang : String
  max_items : Int
  out_dir : Option String
  max_per_source : Int

/-- Model of `parse_args` (source lines 14-22): every omitted flag takes
its `argparse` default; `--out_dir` defaults to `None`. -/
def parse_args (c : CliInput) : Args :=
  { since_days := c.since_days.getD 7
    topics := c.topics.getD "LLM,Agent"
    lang := c.lang.getD "zh"
    max_items := c.max_items.getD 12
    out_dir := c.out_dir
    max_per_source := c.max_per_source.getD 30 }

/-- Model of source line 47,
`out_dir = Path(args.out_dir) if args.out_dir else Path("runs") / dt.date.today().isoformat()`:
Python truthiness makes both `None` and the empty string fall back to the
dated default directory. -/
def resolve_out_dir (a : Args) (today : String) : String :=
  match a.out_dir with
  | some s => if s = "" then pjoin "runs" today else s
  | none => pjoin "runs" today

/-- One entry of the `steps` list (source lines 50-89): stage name, script
path, stage-specific argument list. -/
structure Step where
  name : String
  script : String
  args : List String

/-- Model of the `steps` list built in `main` (source lines 50-89). -/
def steps (e : Env) (a : Args) (out_dir : String) : List Step :=
  [ { name := "collect_rss"
      script := pjoin e.baseDir "collect_rss.py"
      args := ["--since_days", toString a.since_days,
               "--topics", a.topics,
               "--max_items", toString a.max_items,
               "--out_dir", out_dir,
               "--max_per_source", toString a.max_per_source] },
    { name := "normalize"
      script := pjoin e.baseDir "normalize.py"
      args := ["--out_dir", out_dir] },
    { name := "dedupe_rank"
      script := pjoin e.baseDir "dedupe_rank.py"
      args := ["--out_dir", out_dir, "--max_items", toString a.max_items] },
    { name := "render_report"
      script := pjoin e.baseDir "render_report.py"
      args := ["--out_dir", out_dir,
               "--topics", a.topics,
               "--lang", a.lang] } ]

/-- Model of `run_step` (source lines 25-41): run the command as a child
process and report success exactly when the return code is `0`; the second
component is the filesystem after the child terminated. -/
def run_step (e : Env) (command : List String) (fs : FS) : Bool × FS :=
  let r := e.run command fs
  (r.1.returncode == 0, r.2)

/-- Per-stage event recorded in the instrumentation trace: either the
script was missing (no process spawned, source lines 93-96) or the stage
was executed with a given command line and success flag (lines 97-99). -/
inductive StageEvent where
  | missing (name : String)
  | executed (name : String) (command : List String) (ok : Bool)
deriving DecidableEq

/-- Outcome of the stage loop: failure names in order, instrumentation
trace in order, final filesystem. -/
structure RunOut where
  failures : List String
  trace : List StageEvent
  fs : FS

/-- Model of the stage loop (source lines 91-99): for each step, if the
script path does not exist, record the stage name as a failure and
continue without spawning anything; otherwise build the command
`[sys.executable, str(script_path), *step_args]`, run it through
`run_step`, and record a failure when `run_step` reports `False`. -/
def runSteps (e : Env) : List Step → FS → RunOut
  | [], fs => { failures := [], trace := [], fs := fs }
  | st :: rest, fs =>
    if fs st.script = true then
      let command := e.pyexe :: st.script :: st.args
      let res := run_step e command fs
      let out := runSteps e rest res.2
      { failures := if res.1 = true then out.failures else st.name :: out.failures
        trace := StageEvent.executed st.name command res.1 :: out.trace
        fs := out.fs }
    else
      let out := runSteps e rest fs
      { failures := st.name :: out.failures
        trace := StageEvent.missing st.name :: out.trace
        fs := out.fs }

/-- Result of `main`: the returned exit status, the `failures` list, the
instrumentation trace, and the filesystem at the final verdict check. -/
structure MainResult where
  exitCode : Int
  failures : List String
  trace : List StageEvent
  fsFinal : FS

/-- The path `out_dir / "report.md"` tested by the final verdict check
(source line 101), as a function of the environment and CLI input. -/
def report_path (e : Env) (c : CliInput) : String :=
  pjoin (resolve_out_dir (parse_args c) e.today) "report.md"

/-- Model of `main` (source lines 44-114): parse arguments, resolve and
create the output directory, run the four stages in order tolerating
failures, then return `1` when `out_dir / "report.md"` does not exist and
`0` when it does (with or without recorded stage failures). -/
def main (e : Env) (c : CliInput) (fs0 : FS) : MainResult :=
  let a := parse_args c
  let out_dir := resolve_out_dir a e.today
  let fs1 := mkdirp out_dir fs0
  let out := runSteps e (steps e a out_dir) fs1
  { exitCode := if out.fs (pjoin out_dir "report.md") = true then 0 else 1
    failures := out.failures
    trace := out.trace
    fsFinal := out.fs }

/-- Name carried by a stage event. -/
def eventName : StageEvent → String
  | StageEvent.missing n => n
  | StageEvent.executed n _ _ => n

/-- Failure contribution of a stage event: a missing script and an
executed-but-unsuccessful stage each contribute exactly the stage name;
a successful stage contributes nothing. -/
def failName : StageEvent → Option String
  | StageEvent.missing n => some n
  | StageEvent.executed n _ ok => if ok = true then none else some n

/-- The four script paths the orchestrator probes, all resolved relative
to the directory containing the orchestrator script itself. -/
def script_paths (e : Env) : List String :=
  [pjoin e.baseDir "collect_rss.py",
   pjoin e.baseDir "normalize.py",
   pjoin e.baseDir "dedupe_rank.py",
   pjoin e.baseDir "render_report.py"]

/-- Argument subset the spec assigns to the collection stage (refinement
side: written from the spec's words, to be compared with `steps`). -/
def collect_args_spec (a : Args) (od : String) : List String :=
  ["--since_days", toString a.since_days,
   "--topics", a.topics,
   "--max_items", toString a.max_items,
   "--out_dir", od,
   "--max_per_source", toString a.max_per_source]

/-- Argument subset the spec assigns to the normalization stage: only the
output directory, never the topics or the language. -/
def normalize_args_spec (od : String) : List String :=
  ["--out_dir", od]

/-- Argument subset the spec assigns to the deduplication/ranking stage:
output directory and item cap. -/
def dedupe_args_spec (a : Args) (od : String) : List String :=
  ["--out_dir", od, "--max_items", toString a.max_items]

/-- Argument subset the spec assigns to the rendering stage: output
directory, topics and language. -/
def render_args_spec (a : Args) (od : String) : List String :=
  ["--out_dir", od, "--topics", a.topics, "--lang", a.lang]

/-- Full command line the spec assigns to the stage of a given name:
interpreter, script resolved in the orchestrator's own directory, then the
stage-specific argument subset. -/
def spec_command (e : Env) (a : Args) (od : String) : String → Option (List String)
  | "collect_rss" =>
    some (e.pyexe :: pjoin e.baseDir "collect_rss.py" :: collect_args_spec a od)
  | "normalize" =>
    some (e.pyexe :: pjoin e.baseDir "normalize.py" :: normalize_args_spec od)
  | "dedupe_rank" =>
    some (e.pyexe :: pjoin e.baseDir "dedupe_rank.py" :: dedupe_args_spec a od)
  | "render_report" =>
    some (e.pyexe :: pjoin e.baseDir "render_report.py" :: render_args_spec a od)
  | _ => none

/-- Command line of the rendering stage, as `main` builds it. -/
def render_command (e : Env) (a : Args) (od : String) : List String :=
  e.pyexe :: pjoin e.baseDir "render_report.py" :: render_args_spec a od

/-- Filesystem obtained by running a list of commands in sequence. -/
def fsAfter (e : Env) : List (List String) → FS → FS
  | [], fs => fs
  | cmd :: rest, fs => fsAfter e rest ((e.run cmd fs).2)

/-- Concrete CLI input with every flag omitted. -/
def cli_none : CliInput :=
  { since_days := none, topics := none, lang := none, max_items := none,
    out_dir := none, max_per_source := none }

/-- Concrete CLI input with an explicit `--out_dir out` and every other
flag omitted. -/
def cli_out : CliInput :=
  { since_days := none, topics := none, lang := none, max_items := none,
    out_dir := some "out", max_per_source := none }

/-- Concrete environment in which every child process succeeds and (like
the rendering stage's contract) ensures `out/report.md` exists
afterwards. -/
def env_ok : Env :=
  { today := "2026-10-12"
    pyexe := "python3"
    baseDir := "scripts"
    run := fun _ fs => (⟨0, "", ""⟩, fun p => (p == "out/report.md") || fs p) }

/-- Concrete environment in which every child process exits with status 1
and leaves the filesystem untouched. -/
def env_fail : Env :=
  { today := "2026-10-12"
    pyexe := "python3"
    baseDir := "scripts"
    run := fun _ fs => (⟨1, "", ""⟩, fs) }

/-- Concrete initial filesystem holding all four stage scripts. -/
def fs_ok : FS := fun p =>
  ["scripts/collect_rss.py", "scripts/normalize.py",
   "scripts/dedupe_rank.py", "scripts/render_report.py"].contains p

/-- Concrete initial filesystem missing the `normalize.py` script. -/
def fs_missing_normalize : FS := fun p =>
  ["scripts/collect_rss.py", "scripts/dedupe_rank.py",
   "scripts/render_report.py"].contains p

/-- Concrete initial filesystem holding only a stale `out/report.md`. -/
def fs_stale : FS := fun p => p == "out/report.md"

theorem runSteps_trace_names (e : Env) :
    ∀ (ss : List Step) (fs : FS),
      ((runSteps e ss fs).trace).map eventName = ss.map Step.name := by
  intro ss
  induction ss with
  | nil => intro fs; rfl
  | cons st rest ih =>
    intro fs
    simp only [runSteps]
    split
    · simp [eventName, ih]
    · simp [eventName, ih]

theorem runSteps_failures_eq (e : Env) :
    ∀ (ss : List Step) (fs : FS),
      (runSteps e ss fs).failures = ((runSteps e ss fs).trace).filterMap failName := by
  intro ss
  induction ss with
  | nil => intro fs; rfl
  | cons st rest ih =>
    intro fs
    simp only [runSteps]
    split
    · cases hc : (run_step e (e.pyexe :: st.script :: st.args) fs).1 <;>
        simp [failName, hc, ih]
    · simp [failName, ih]

theorem runSteps_trace_executed (e : Env) :
    ∀ (ss : List Step) (fs : FS) (n : String) (cmd : List String) (ok : Bool),
      StageEvent.executed n cmd ok ∈ (runSteps e ss fs).trace →
      ∃ st, st ∈ ss ∧ n = st.name ∧ cmd = e.pyexe :: st.script :: st.args := by
  intro ss
  induction ss with
  | nil => intro fs n cmd ok h; simp [runSteps] at h
  | cons st rest ih =>
    intro fs n cmd ok h
    simp only [runSteps] at h
    split at h
    · rcases List.mem_cons.mp h with h | h
      · cases h
        exact ⟨st, List.mem_cons_self st rest, rfl, rfl⟩
      · obtain ⟨st', hmem, hn, hc⟩ := ih _ n cmd ok h
        exact ⟨st', List.mem_cons_of_mem st hmem, hn, hc⟩
    · rcases List.mem_cons.mp h with h | h
      · cases h
      · obtain ⟨st', hmem, hn, hc⟩ := ih _ n cmd ok h
        exact ⟨st', List.mem_cons_of_mem st hmem, hn, hc⟩

theorem runSteps_fs_congr (e : Env) (p : String)
    (hp : ∀ cmd f, ((e.run cmd f).2) p = f p) :
    ∀ (ss : List Step) (fs : FS), (runSteps e ss fs).fs p = fs p := by
  intro ss
  induction ss with
  | nil => intro fs; rfl
  | cons st rest ih =>
    intro fs
    simp only [runSteps]
    split
    · simp only [run_step]
      rw [ih, hp]
    · rw [ih]

theorem runSteps_all_ok (e : Env)
    (hmono : ∀ cmd f p, f p = true → ((e.run cmd f).2) p = true)
    (hrc : ∀ cmd f, ((e.run cmd f).1).returncode = 0) :
    ∀ (ss : List Step) (fs : FS), (∀ st ∈ ss, fs st.script = true) →
      (runSteps e ss fs).failures = [] ∧
      (runSteps e ss fs).fs = fsAfter e (ss.map fun st => e.pyexe :: st.script :: st.args) fs := by
  intro ss
  induction ss with
  | nil => intro fs _; exact ⟨rfl, rfl⟩
  | cons st rest ih =>
    intro fs hsc
    have hst : fs st.script = true := hsc st (List.mem_cons_self st rest)
    have hrest : ∀ st' ∈ rest,
        ((e.run (e.pyexe :: st.script :: st.args) fs).2) st'.script = true :=
      fun st' h => hmono _ _ _ (hsc st' (List.mem_cons_of_mem st h))
    have hok : (run_step e (e.pyexe :: st.script :: st.args) fs).1 = true := by
      simp [run_step, hrc]
    obtain ⟨ihf, ihfs⟩ := ih ((e.run (e.pyexe :: st.script :: st.args) fs).2) hrest
    simp only [runSteps, hst, if_pos]
    refine ⟨?_, ?_⟩
    · simp only [run_step] at hok ⊢
      simp [hok, run_step] at ihf ⊢
      exact ihf
    · simp only [run_step]
      simpa [fsAfter] using ihfs

theorem fsAfter_mono (e : Env) (p : String)
    (hmono : ∀ cmd f, f p = true → ((e.run cmd f).2) p = true) :
    ∀ (cmds : List (List String)) (fs : FS), fs p = true → (fsAfter e cmds fs) p = true := by
  intro cmds
  induction cmds with
  | nil => intro fs h; exact h
  | cons cmd rest ih => intro fs h; exact ih _ (hmono cmd fs h)

/-- C1: after all four stages have been attempted, the exit status is `1`
exactly when `report.md` is absent from the resolved output directory, `0`
exactly when it is present (however many stages failed), and no other exit
status is possible. -/
theorem c1_exit_status_iff_report_exists (e : Env) (c : CliInput) (fs0 : FS) :
    ((main e c fs0).exitCode = 1 ↔ (main e c fs0).fsFinal (report_path e c) = false) ∧
    ((main e c fs0).exitCode = 0 ↔ (main e c fs0).fsFinal (report_path e c) = true) ∧
    ((main e c fs0).exitCode = 0 ∨ (main e c fs0).exitCode = 1) := by
  simp only [main, report_path]
  cases h : (runSteps e (steps e (parse_args c) (resolve_out_dir (parse_args c) e.today))
      (mkdirp (resolve_out_dir (parse_args c) e.today) fs0)).fs
      (pjoin (resolve_out_dir (parse_args c) e.today) "report.md") <;> simp [h]

/-- C2: whatever each stage's outcome is, the orchestrator attempts all
four stages exactly once each, in the fixed order collect_rss → normalize
→ dedupe_rank → render_report, with no early abort, retry, or skip. -/
theorem c2_all_stages_attempted_in_order (e : Env) (c : CliInput) (fs0 : FS) :
    ((main e c fs0).trace).map eventName =
      ["collect_rss", "normalize", "dedupe_rank", "render_report"] := by
  simp only [main]
  rw [runSteps_trace_names]
  rfl

/-- C3: `run_step` reports a stage successful exactly when the child
process's return code is zero; any other return code (including the
negative codes that report a crash or a kill signal) makes it report
failure. -/
theorem c3_run_step_success_iff_zero_exit (e : Env) (command : List String) (fs : FS) :
    (run_step e command fs).1 = true ↔ ((e.run command fs).1).returncode = 0 := by
  simp [run_step]

/-- C7: every omitted configuration field takes its documented default:
`since_days` 7, `topics` "LLM,Agent", `lang` "zh", `max_items` 12,
`max_per_source` 30, and output directory `runs/<today>` when `--out_dir`
is not given. -/
theorem c7_defaults (c : CliInput) (today : String) :
    (c.since_days = none → (parse_args c).since_days = 7) ∧
    (c.topics = none → (parse_args c).topics = "LLM,Agent") ∧
    (c.lang = none → (parse_args c).lang = "zh") ∧
    (c.max_items = none → (parse_args c).max_items = 12) ∧
    (c.max_per_source = none → (parse_args c).max_per_source = 30) ∧
    (c.out_dir = none → resolve_out_dir (parse_args c) today = pjoin "runs" today) := by
  refine ⟨fun h => ?_, fun h => ?_, fun h => ?_, fun h => ?_, fun h => ?_, fun h => ?_⟩ <;>
    simp [parse_args, resolve_out_dir, h]

/-- C4: a stage whose script path does not exist is recorded in the same
`failures` list, in the same form (just the stage name), as a stage that
ran and exited nonzero; its trace event is `missing`, so no child process
was spawned for it, and no `executed` event for it exists. -/
theorem c4_missing_script_recorded_without_spawn (e : Env) (c : CliInput) (fs0 : FS) :
    (main e c fs0).failures = ((main e c fs0).trace).filterMap failName ∧
    (∀ n, StageEvent.missing n ∈ (main e c fs0).trace → n ∈ (main e c fs0).failures) ∧
    (∀ n, StageEvent.missing n ∈ (main e c fs0).trace →
      ∀ cmd ok, StageEvent.executed n cmd ok ∉ (main e c fs0).trace) := by
  have hfail : (main e c fs0).failures = ((main e c fs0).trace).filterMap failName := by
    simp only [main]
    exact runSteps_failures_eq e _ _
  have hmap : ((main e c fs0).trace).map eventName =
      ["collect_rss", "normalize", "dedupe_rank", "render_report"] := by
    simp only [main]
    rw [runSteps_trace_names]
    rfl
  refine ⟨hfail, fun n hn => ?_, fun n hn cmd ok hex => ?_⟩
  · rw [hfail]
    exact List.mem_filterMap.mpr ⟨StageEvent.missing n, hn, rfl⟩
  · have hnd : (((main e c fs0).trace).map eventName).Nodup := by
      rw [hmap]; decide
    have heq := List.inj_on_of_nodup_map hnd hn hex (by rfl)
    cases heq

/-- C5: every stage the orchestrator actually spawns receives exactly the
argument subset the spec assigns to its name, derived from the resolved
run configuration and output directory: collection gets since_days,
topics, max_items, out_dir and max_per_source; normalization only
out_dir; dedup/rank out_dir and max_items; rendering out_dir, topics and
lang. -/
theorem c5_argument_forwarding (e : Env) (c : CliInput) (fs0 : FS)
    (n : String) (cmd : List String) (ok : Bool)
    (h : StageEvent.executed n cmd ok ∈ (main e c fs0).trace) :
    spec_command e (parse_args c) (resolve_out_dir (parse_args c) e.today) n = some cmd := by
  simp only [main] at h
  obtain ⟨st, hst, hn, hcmd⟩ := runSteps_trace_executed e _ _ n cmd ok h
  subst hn
  subst hcmd
  simp only [steps, List.mem_cons, List.not_mem_nil, or_false] at hst
  rcases hst with h | h | h | h <;> subst h <;> rfl

/-- C6: for every value of `--lang`, the final verdict tests the one path
`<output-directory>/report.md`, where the output directory does not depend
on the language; the checked filename is the fixed name `report.md`. -/
theorem c6_verdict_path_independent_of_lang (e : Env) (c : CliInput) (fs0 : FS) (l : String) :
    (report_path e { c with lang := some l } =
      pjoin (resolve_out_dir (parse_args c) e.today) "report.md") ∧
    ((main e { c with lang := some l } fs0).exitCode = 0 ↔
      (main e { c with lang := some l } fs0).fsFinal
        (pjoin (resolve_out_dir (parse_args c) e.today) "report.md") = true) := by
  have hres : resolve_out_dir (parse_args { c with lang := some l }) e.today =
      resolve_out_dir (parse_args c) e.today := rfl
  refine ⟨rfl, ?_⟩
  simp only [main]
  rw [hres]
  cases h : (runSteps e
      (steps e (parse_args { c with lang := some l })
        (resolve_out_dir (parse_args c) e.today))
      (mkdirp (resolve_out_dir (parse_args c) e.today) fs0)).fs
      (pjoin (resolve_out_dir (parse_args c) e.today) "report.md") <;> simp [h]

/-- C9: when `report.md` already exists in the resolved output directory
before any stage runs and no spawned stage changes that path, the
orchestrator exits with status 0 whatever the stages' outcomes, because
the final check only tests existence and the orchestrator itself never
deletes or overwrites the file (its only filesystem write is `mkdirp`). -/
theorem c9_stale_report_gives_success (e : Env) (c : CliInput) (fs0 : FS)
    (hpre : fs0 (report_path e c) = true)
    (hstages : ∀ cmd f, ((e.run cmd f).2) (report_path e c) = f (report_path e c)) :
    (main e c fs0).exitCode = 0 ∧ (main e c fs0).fsFinal (report_path e c) = true := by
  have hstages2 : ∀ cmd f, ((e.run cmd f).2)
      (pjoin (resolve_out_dir (parse_args c) e.today) "report.md") =
      f (pjoin (resolve_out_dir (parse_args c) e.today) "report.md") := hstages
  have hpre2 : fs0 (pjoin (resolve_out_dir (parse_args c) e.today) "report.md") = true := hpre
  have hfs2 : (runSteps e (steps e (parse_args c) (resolve_out_dir (parse_args c) e.today))
      (mkdirp (resolve_out_dir (parse_args c) e.today) fs0)).fs
      (pjoin (resolve_out_dir (parse_args c) e.today) "report.md") = true := by
    rw [runSteps_fs_congr e _ hstages2]
    simp [mkdirp, hpre2]
  refine ⟨?_, hfs2⟩
  show (if (runSteps e (steps e (parse_args c) (resolve_out_dir (parse_args c) e.today))
      (mkdirp (resolve_out_dir (parse_args c) e.today) fs0)).fs
      (pjoin (resolve_out_dir (parse_args c) e.today) "report.md") = true
    then (0 : Int) else 1) = 0
  rw [hfs2]
  simp

/-- C10: every spawned stage's command line starts with the interpreter
running the orchestrator (`sys.executable`) followed by the stage script
resolved inside the orchestrator's own directory (`Path(__file__).resolve().parent`),
not the caller's working directory. -/
theorem c10_script_resolution_and_interpreter (e : Env) (c : CliInput) (fs0 : FS)
    (n : String) (cmd : List String) (ok : Bool)
    (h : StageEvent.executed n cmd ok ∈ (main e c fs0).trace) :
    ∃ fname rest,
      fname ∈ ["collect_rss.py", "normalize.py", "dedupe_rank.py", "render_report.py"] ∧
      cmd = e.pyexe :: pjoin e.baseDir fname :: rest := by
  simp only [main] at h
  obtain ⟨st, hst, hn, hcmd⟩ := runSteps_trace_executed e _ _ n cmd ok h
  subst hcmd
  simp only [steps, List.mem_cons, List.not_mem_nil, or_false] at hst
  rcases hst with h | h | h | h
  · subst h; exact ⟨"collect_rss.py", _, by decide, rfl⟩
  · subst h; exact ⟨"normalize.py", _, by decide, rfl⟩
  · subst h; exact ⟨"dedupe_rank.py", _, by decide, rfl⟩
  · subst h; exact ⟨"render_report.py", _, by decide, rfl⟩

theorem main_success_run (e : Env) (c : CliInput) (d : String)
    (hout : resolve_out_dir (parse_args c) e.today = d)
    (hmono : ∀ cmd f p, f p = true → ((e.run cmd f).2) p = true)
    (hrc : ∀ cmd f, ((e.run cmd f).1).returncode = 0)
    (hrender : ∀ f, ((e.run (render_command e (parse_args c) d) f).2) (pjoin d "report.md") = true)
    (fs0 : FS) (hscripts : ∀ s ∈ script_paths e, fs0 s = true) :
    (main e c fs0).exitCode = 0 ∧ (main e c fs0).failures = [] ∧
    (main e c fs0).fsFinal (pjoin d "report.md") = true ∧
    (∀ s ∈ script_paths e, (main e c fs0).fsFinal s = true) := by
  simp only [main]
  rw [hout]
  have hm : ∀ s ∈ script_paths e, (mkdirp d fs0) s = true := by
    intro s hs
    have hx := hscripts s hs
    simp [mkdirp, hx]
  have hscripts1 : ∀ st ∈ steps e (parse_args c) d, (mkdirp d fs0) st.script = true := by
    intro st hst
    simp only [steps, List.mem_cons, List.not_mem_nil, or_false] at hst
    rcases hst with h | h | h | h <;> subst h
    · exact hm _ (by simp [script_paths])
    · exact hm _ (by simp [script_paths])
    · exact hm _ (by simp [script_paths])
    · exact hm _ (by simp [script_paths])
  obtain ⟨hfail, hfs⟩ :=
    runSteps_all_ok e hmono hrc (steps e (parse_args c) d) (mkdirp d fs0) hscripts1
  have hreport : (runSteps e (steps e (parse_args c) d) (mkdirp d fs0)).fs
      (pjoin d "report.md") = true := by
    rw [hfs]
    simp only [steps, List.map_cons, List.map_nil, fsAfter]
    exact hrender _
  have hscriptsF : ∀ s ∈ script_paths e,
      (runSteps e (steps e (parse_args c) d) (mkdirp d fs0)).fs s = true := by
    intro s hs
    rw [hfs]
    exact fsAfter_mono e s (fun cmd f h => hmono cmd f s h) _ _ (hm s hs)
  refine ⟨?_, hfail, hreport, hscriptsF⟩
  rw [hreport]
  simp

/-- C8: running the orchestrator twice in a row with the same explicit
`--out_dir`, with every stage succeeding (monotone filesystem effects,
zero return codes, rendering producing `report.md`), leaves `report.md`
existing after each run and returns exit status 0 both times; the second
run's `mkdirp` and verdict check work on the already-existing directory
since the orchestrator performs no cleanup between runs. -/
theorem c8_rerun_same_out_dir (e : Env) (c : CliInput) (d : String) (fs0 : FS)
    (hcli : c.out_dir = some d) (hd : d ≠ "")
    (hmono : ∀ cmd f p, f p = true → ((e.run cmd f).2) p = true)
    (hrc : ∀ cmd f, ((e.run cmd f).1).returncode = 0)
    (hrender : ∀ f, ((e.run (render_command e (parse_args c) d) f).2) (pjoin d "report.md") = true)
    (hscripts : ∀ s ∈ script_paths e, fs0 s = true) :
    (main e c fs0).exitCode = 0 ∧
    (main e c (main e c fs0).fsFinal).exitCode = 0 ∧
    (main e c fs0).fsFinal (pjoin d "report.md") = true ∧
    (main e c (main e c fs0).fsFinal).fsFinal (pjoin d "report.md") = true ∧
    (main e c fs0).failures = [] ∧
    (main e c (main e c fs0).fsFinal).failures = [] := by
  have hout : resolve_out_dir (parse_args c) e.today = d := by
    simp [resolve_out_dir, parse_args, hcli, hd]
  obtain ⟨h1e, h1f, h1r, h1s⟩ := main_success_run e c d hout hmono hrc hrender fs0 hscripts
  obtain ⟨h2e, h2f, h2r, _⟩ :=
    main_success_run e c d hout hmono hrc hrender (main e c fs0).fsFinal h1s
  exact ⟨h1e, h2e, h1r, h2r, h1f, h2f⟩

/-- Witness for C4: with the `normalize.py` script absent, its stage name
lands in the failures list and no `executed` event for it exists. -/
theorem c4_witness :
    "normalize" ∈ (main env_ok cli_out fs_missing_normalize).failures ∧
    StageEvent.executed "normalize" ["x"] true ∉
      (main env_ok cli_out fs_missing_normalize).trace :=
  ⟨(c4_missing_script_recorded_without_spawn env_ok cli_out fs_missing_normalize).2.1
      "normalize" (by decide),
   (c4_missing_script_recorded_without_spawn env_ok cli_out fs_missing_normalize).2.2
      "normalize" (by decide) ["x"] true⟩

/-- Witness for C5: the executed normalization stage received exactly the
command the spec assigns to it. -/
theorem c5_witness :
    spec_command env_ok (parse_args cli_out)
      (resolve_out_dir (parse_args cli_out) env_ok.today) "normalize" =
      some ["python3", "scripts/normalize.py", "--out_dir", "out"] :=
  c5_argument_forwarding env_ok cli_out fs_ok "normalize"
    ["python3", "scripts/normalize.py", "--out_dir", "out"] true (by decide)

/-- Witness for C7: with every flag omitted, the resolved configuration is
exactly the documented defaults. -/
theorem c7_witness :
    (parse_args cli_none).since_days = 7 ∧
    (parse_args cli_none).topics = "LLM,Agent" ∧
    (parse_args cli_none).lang = "zh" ∧
    (parse_args cli_none).max_items = 12 ∧
    (parse_args cli_none).max_per_source = 30 ∧
    resolve_out_dir (parse_args cli_none) "2026-10-12" = pjoin "runs" "2026-10-12" :=
  ⟨(c7_defaults cli_none "2026-10-12").1 rfl,
   (c7_defaults cli_none "2026-10-12").2.1 rfl,
   (c7_defaults cli_none "2026-10-12").2.2.1 rfl,
   (c7_defaults cli_none "2026-10-12").2.2.2.1 rfl,
   (c7_defaults cli_none "2026-10-12").2.2.2.2.1 rfl,
   (c7_defaults cli_none "2026-10-12").2.2.2.2.2 rfl⟩

/-- Witness for C8: two successive runs into the explicit directory `out`
with all stages succeeding both return exit status 0 and both leave
`out/report.md` in place. -/
theorem c8_witness :
    (main env_ok cli_out fs_ok).exitCode = 0 ∧
    (main env_ok cli_out (main env_ok cli_out fs_ok).fsFinal).exitCode = 0 ∧
    (main env_ok cli_out fs_ok).fsFinal (pjoin "out" "report.md") = true ∧
    (main env_ok cli_out (main env_ok cli_out fs_ok).fsFinal).fsFinal
      (pjoin "out" "report.md") = true ∧
    (main env_ok cli_out fs_ok).failures = [] ∧
    (main env_ok cli_out (main env_ok cli_out fs_ok).fsFinal).failures = [] :=
  c8_rerun_same_out_dir env_ok cli_out "out" fs_ok rfl (by decide)
    (fun cmd f p h => by simp [env_ok, h])
    (fun _ _ => rfl)
    (fun f => by
      have hb : (pjoin "out" "report.md" == "out/report.md") = true := by decide
      simp [env_ok, hb])
    (by decide)

/-- Witness for C9: a stale `out/report.md` plus four stages that all exit
nonzero still produces exit status 0. -/
theorem c9_witness :
    (main env_fail cli_out fs_stale).exitCode = 0 ∧
    (main env_fail cli_out fs_stale).fsFinal (report_path env_fail cli_out) = true :=
  c9_stale_report_gives_success env_fail cli_out fs_stale (by decide) (fun _ _ => rfl)

/-- Witness for C10: the executed normalization stage's command line
starts with the interpreter and the script resolved in the orchestrator's
directory. -/
theorem c10_witness :
    ∃ fname rest,
      fname ∈ ["collect_rss.py", "normalize.py", "dedupe_rank.py", "render_report.py"] ∧
      ["python3", "scripts/normalize.py", "--out_dir", "out"] =
        env_ok.pyexe :: pjoin env_ok.baseDir fname :: rest :=
  c10_script_resolution_and_interpreter env_ok cli_out fs_ok "normalize"
    ["python3", "scripts/normalize.py", "--out_dir", "out"] true (by decide)

end RunWeekly
